import Mathlib

/-!
Shallow embedding of the upload path of the ffsend client
(`src/api/src/action/upload.rs`, with its CLI caller in
`src/cli/src/action/upload.rs`).

External collaborators (the `reqwest` HTTP client, the `url` crate, the
`openssl` AEAD primitive, `mime_guess`, `serde_json`, the filesystem and
the progress-reporter lock) are modelled as fields of an `Env` record:
each is a pure function or flag describing the outcome that collaborator
produces during one invocation.  Code of this repository that lives
outside the provided sources (the `KeySet`, `SendFile`, `Metadata` and
reader modules, and `StatusCodeExt::err_text`) is modelled from the
specification at its visible call sites; such definitions carry a
`Modelled from the spec:` note in their doc comment.

Panics (`unwrap`/`expect`) are modelled explicitly: `Outcome.panics msg`
is an abort that never flows through the `Error` result type.
Observable side effects (key generation, the HTTP request, starting and
finishing the progress reporter) are recorded in an event trace.
-/

namespace Ffsend

/-- Model of `url::Url`.  The `url` crate is external: a URL is kept as
its components plus the `cannot_be_a_base` property that makes
`Url::join` fail. -/
structure Url where
  base : String
  path : String
  query : Option String
  fragment : Option String
  cannotBeABase : Bool
deriving DecidableEq, Repr

/-- Serialize a URL back to a string (components in order, query after
`?`, fragment after the hash sign). -/
def Url.toStr (u : Url) : String :=
  u.base ++ u.path
    ++ (match u.query with | some q => "?" ++ q | none => "")
    ++ (match u.fragment with | some f => "#" ++ f | none => "")

/-- Keep the directory part of a path: everything up to and including the
last slash (empty when the path has no slash). -/
def dirPart (p : String) : String :=
  String.mk ((p.data.reverse.dropWhile (fun c => c != '/')).reverse)

/-- Model of `Url::join` with a relative reference such as
`"api/upload"`: fails on a cannot-be-a-base URL, otherwise resolves the
relative path against the directory of the base URL's path and drops
query and fragment. -/
def Url.join (u : Url) (rel : String) : Option Url :=
  if u.cannotBeABase then none
  else some { base := u.base, path := dirPart u.path ++ rel,
              query := none, fragment := none, cannotBeABase := false }

/-- Does `needle` start `hay`? (plain character-list comparison). -/
def startsSeq : List Char → List Char → Bool
  | [], _ => true
  | _ :: _, [] => false
  | a :: as, b :: bs => a == b && startsSeq as bs

/-- Does `needle` occur contiguously inside `hay`? -/
def containsSeq (needle : List Char) : List Char → Bool
  | [] => startsSeq needle []
  | c :: rest => startsSeq needle (c :: rest) || containsSeq needle rest

/-- Does string `needle` occur inside string `hay`? -/
def strHasSub (needle hay : String) : Bool :=
  containsSeq needle.data hay.data

/-- Modelled from the spec: `KeySet` (`crypto/key_set.rs` is not among
the provided sources).  It holds the raw secret, the base iv and the
three derived sub-keys, plus the encoded form of the authentication key
used as an HTTP credential.  Byte strings are lists of naturals. -/
structure KeySet where
  secret : List Nat
  iv : List Nat
  authKey : List Nat
  metaKey : List Nat
  fileKey : List Nat
  authKeyEncoded : String
deriving DecidableEq, Repr

/-- Model of `std::path::PathBuf` as the facts the upload consults:
whether the path is an existing regular file, its final component
(`file_name()` is `none` for paths like `..`; the inner option models
`OsStr::to_str` failing on non-UTF-8 names), and its extension. -/
structure Path where
  isFile : Bool
  fileName : Option (Option String)
  extension : Option String
deriving DecidableEq, Repr

/-- The upload action: a Send host and the local file path
(`Upload { host, path }`). -/
structure Upload where
  host : Url
  path : Path
deriving DecidableEq, Repr

/-- Metadata as constructed by `Metadata::from(key.iv(), name, mime)`:
the key set's iv, the display file name and the mime type.
(`file/metadata.rs` is not among the provided sources; the field list is
taken from the visible call site and the spec.) -/
structure Metadata where
  iv : List Nat
  name : String
  mime : String
deriving DecidableEq, Repr

/-- The decoded JSON upload response: exactly the string fields `id`,
`url` and `owner`. -/
structure UploadResponse where
  id : String
  url : String
  owner : String
deriving DecidableEq, Repr

/-- An HTTP response: status code and body. -/
structure Response where
  status : Nat
  body : String
deriving DecidableEq, Repr

/-- `StatusCode::is_success`: a 2xx status. -/
def isSuccess (status : Nat) : Bool :=
  200 ≤ status && status < 300

/-- Modelled from the spec: the `SendFile` file handle
(`file/file.rs` is not among the provided sources).  Field list from the
visible `SendFile::new_now(id, host, url, secret, owner)` call site and
the spec's File Handle description. -/
structure SendFile where
  id : String
  host : Url
  url : Url
  secret : List Nat
  owner : String
deriving DecidableEq, Repr

/-- Modelled from the spec: `SendFile::download_url(include_secret)`
(`file/file.rs` is not among the provided sources).  Per the spec, the
download URL is the base URL plus, when the secret is included, a
fragment carrying an encoding of the secret; `enc` is the (frozen,
externally defined) fragment encoding of the secret. -/
def SendFile.downloadUrl (enc : List Nat → String) (f : SendFile)
    (includeSecret : Bool) : Url :=
  if includeSecret then { f.url with fragment := some (enc f.secret) }
  else f.url

/-- `MetaError` from the source: metadata encryption failure. -/
inductive MetaError where
  | encrypt
deriving DecidableEq, Repr

/-- `ReaderError` from the source. -/
inductive ReaderError where
  | encrypt
  | progress
deriving DecidableEq, Repr

/-- `FileError` from the source; the `Open` variant's `IoError` cause is
kept as its message string. -/
inductive FileError where
  | notAFile
  | Open (cause : String)
deriving DecidableEq, Repr

/-- `PrepareError` from the source. -/
inductive PrepareError where
  | meta (e : MetaError)
  | reader (e : ReaderError)
deriving DecidableEq, Repr

/-- `UploadError` from the source; `decode`'s `ReqwestError` cause and
`parseUrl`'s `UrlParseError` cause are not observable in the model and
are left out. -/
inductive UploadError where
  | progress
  | request
  | requestStatus (status : Nat) (msg : String)
  | decode
  | parseUrl
deriving DecidableEq, Repr

/-- The top-level `Error` enum from the source. -/
inductive Error where
  | prepare (e : PrepareError)
  | file (e : FileError)
  | upload (e : UploadError)
deriving DecidableEq, Repr

/-- Observable side effects of one `invoke`, in order. -/
inductive Event where
  | keygen
  | reporterStart (total : Nat)
  | httpExecute
  | reporterFinish
deriving DecidableEq, Repr

/-- Result of running `invoke`: a normal value, an `Error`, or an abort
through `panic` (`unwrap`/`expect`), which never flows through the
`Error` type. -/
inductive Outcome (α : Type) where
  | panics (msg : String)
  | fails (e : Error)
  | ok (v : α)
deriving DecidableEq, Repr

/-- The environment: one invocation's external collaborators, each as a
pure function or flag for the outcome it produces. -/
structure Env where
  /-- The key set produced by `KeySet::generate(true)` (randomness is
  external). -/
  keySet : KeySet
  /-- `Metadata::to_json` serialization to bytes (metadata module and
  `serde_json` are external to the provided sources). -/
  toJson : Metadata → List Nat
  /-- `openssl::symm::encrypt_aead key nonce aad plaintext tagLen`,
  returning ciphertext and the tag written into the
  caller-allocated buffer of size `tagLen`, or `none` on failure. -/
  aead : List Nat → List Nat → List Nat → List Nat → Nat →
      Option (List Nat × List Nat)
  /-- `mime_guess`'s extension table (external crate): the mime type for
  a file extension, `none` when the extension is unknown. -/
  mimeFromExt : String → Option String
  /-- Does `File::open` succeed? -/
  openOk : Bool
  /-- Does `EncryptedFileReader::new` succeed? -/
  encReaderOk : Bool
  /-- Does `ProgressReader::new` succeed? -/
  progressReaderOk : Bool
  /-- What `ExactLengthReader::len()` returns for the encrypted stream:
  `none` models a failure to determine the length. -/
  readerLen : Option Nat
  /-- Does `RequestBuilder::build()` succeed? -/
  buildOk : Bool
  /-- Does the reporter's mutex lock succeed at `start` time? -/
  startLockOk : Bool
  /-- Does the reporter's mutex lock succeed at `finish` time? -/
  finishLockOk : Bool
  /-- The transport outcome of `client.execute(req)`: `none` is a
  transport failure, `some` the received response. -/
  httpResponse : Option Response
  /-- `StatusCodeExt::err_text` (`ext/status_code.rs` is not among the
  provided sources).  The visible call site `status.err_text()` shows
  it is a function of the status code alone; the spec gives no formula
  for it, so it stays abstract. -/
  errText : Nat → String
  /-- JSON decoding of the response body into `UploadResponse`
  (`serde`/`reqwest` are external): `none` is a decode failure. -/
  decodeJson : String → Option UploadResponse
  /-- `Url::parse` on the URL string returned by the server (`url`
  crate, external): `none` is a parse failure. -/
  parseUrl : String → Option Url

/-- The data `FileData` holds: display name and mime type. -/
structure FileData where
  name : String
  mime : String
deriving DecidableEq, Repr

/-- `guess_mime_type` (external `mime_guess` crate, per its contract):
the mime guessed from the extension, falling back to
`application/octet-stream` when the extension is absent or unknown. -/
def guessMimeType (env : Env) (p : Path) : String :=
  ((p.extension.bind env.mimeFromExt)).getD "application/octet-stream"

/-- `FileData::from(path)`: reject paths that are not an existing
regular file, default the display name to the literal `"file"` when the
path has no final component or it is not valid UTF-8, and guess the
mime type. -/
def FileData.fromPath (env : Env) (p : Path) : Except FileError FileData :=
  if !p.isFile then .error .notAFile
  else
    let name := match p.fileName with
      | some n => n.getD "file"
      | none => "file"
    .ok { name := name, mime := guessMimeType env p }

/-- `Upload::create_metadata`: serialize `Metadata::from(key.iv(),
file.name, file.mime)` to its JSON byte form, AEAD-encrypt it with the
meta key under the fixed all-zero 12-byte nonce with a 16-byte tag
buffer, and append the tag; an AEAD failure is `MetaError::Encrypt`. -/
def createMetadata (env : Env) (key : KeySet) (file : FileData) :
    Except MetaError (List Nat) :=
  let metadata := env.toJson { iv := key.iv, name := file.name, mime := file.mime }
  match env.aead key.metaKey (List.replicate 12 0) [] metadata 16 with
  | some (ct, tag) => .ok (ct ++ tag)
  | none => .error .encrypt

/-- The encrypted progress reader, reduced to the one fact the upload
consults: what `len()` returns. -/
structure Reader where
  len : Option Nat
deriving DecidableEq, Repr

/-- `Upload::create_reader`: open the file (`FileError::Open` on
failure), wrap it in the encrypted reader (`ReaderError::Encrypt` on
failure), then in the progress reader (`ReaderError::Progress` on
failure), each error wrapped into `Error` exactly as the source's
`From` impls do. -/
def createReader (env : Env) : Except Error Reader :=
  if !env.openOk then .error (.file (.Open "io"))
  else if !env.encReaderOk then .error (.prepare (.reader .encrypt))
  else if !env.progressReaderOk then .error (.prepare (.reader .progress))
  else .ok { len := env.readerLen }

/-- One part of a multipart form. -/
structure Part where
  name : String
  len : Nat
  mime : String
deriving DecidableEq, Repr

/-- The built HTTP request. -/
structure Request where
  method : String
  url : Url
  auth : String
  metaHeader : List Nat
  parts : List Part
deriving DecidableEq, Repr

/-- `Upload::create_request`: read the reader length
(`expect "failed to get reader length"`), build the single-part
`"data"` form with that length and the octet-stream mime, join the host
with `"api/upload"` (`expect "invalid host"`), and build the POST
request with the `send-v1` authorization header and the metadata header
(`expect "failed to build an API request"`).  An `.error msg` models
the corresponding panic. -/
def createRequest (env : Env) (u : Upload) (key : KeySet)
    (metadata : List Nat) (reader : Reader) : Except String Request :=
  match reader.len with
  | none => .error "failed to get reader length"
  | some len =>
    let part : Part := { name := "data", len := len,
                         mime := "application/octet-stream" }
    match u.host.join "api/upload" with
    | none => .error "invalid host"
    | some url =>
      if env.buildOk then
        .ok { method := "POST", url := url,
              auth := "send-v1 " ++ key.authKeyEncoded,
              metaHeader := metadata,
              parts := [part] }
      else .error "failed to build an API request"

/-- `UploadResponse::into_file`: parse the returned URL
(`UploadError::ParseUrl` on failure) and build the file handle from the
response fields, the local host and the key set's secret. -/
def UploadResponse.intoFile (env : Env) (r : UploadResponse) (host : Url)
    (key : KeySet) : Except UploadError SendFile :=
  match env.parseUrl r.url with
  | none => .error .parseUrl
  | some parsed =>
    .ok { id := r.id, host := host, url := parsed,
          secret := key.secret, owner := r.owner }

/-- `Upload::execute_request`: execute the request (transport failure is
`UploadError::Request`), reject non-2xx statuses with
`RequestStatus(status, status.err_text())`, decode the JSON body
(`UploadError::Decode` on failure) and convert it into a file handle.
The trace records the one network call. -/
def executeRequest (env : Env) (u : Upload) (key : KeySet) :
    Except UploadError SendFile × List Event :=
  let result : Except UploadError SendFile :=
    match env.httpResponse with
    | none => .error .request
    | some resp =>
      if !isSuccess resp.status then
        .error (.requestStatus resp.status (env.errText resp.status))
      else
        match env.decodeJson resp.body with
        | none => .error .decode
        | some r => r.intoFile env u.host key
  (result, [Event.httpExecute])

/-- `Upload::invoke`: the full upload sequence with its event trace —
file check, key generation, metadata encryption, reader construction,
the `reader.len().unwrap()`, request construction, reporter start
(progress error if the lock fails), request execution, reporter finish
(progress error if the lock fails), then the result. -/
def invoke (env : Env) (u : Upload) : Outcome SendFile × List Event :=
  match FileData.fromPath env u.path with
  | .error e => (.fails (.file e), [])
  | .ok file =>
    let key := env.keySet
    let tr0 := [Event.keygen]
    match createMetadata env key file with
    | .error e => (.fails (.prepare (.meta e)), tr0)
    | .ok metadata =>
      match createReader env with
      | .error e => (.fails e, tr0)
      | .ok reader =>
        match reader.len with
        | none => (.panics "called Option::unwrap on a None value", tr0)
        | some readerLen =>
          match createRequest env u key metadata reader with
          | .error msg => (.panics msg, tr0)
          | .ok _req =>
            if !env.startLockOk then (.fails (.upload .progress), tr0)
            else
              let tr1 := tr0 ++ [Event.reporterStart readerLen]
              let (result, trE) := executeRequest env u key
              let tr2 := tr1 ++ trE
              if !env.finishLockOk then (.fails (.upload .progress), tr2)
              else
                let tr3 := tr2 ++ [Event.reporterFinish]
                match result with
                | .error e => (.fails (.upload e), tr3)
                | .ok f => (.ok f, tr3)

/-! Concrete fixtures used by witnesses and counterexamples. -/

/-- A well-formed Send host URL. -/
def urlW : Url :=
  { base := "https://send.firefox.com", path := "/", query := none,
    fragment := none, cannotBeABase := false }

/-- An existing regular file with a UTF-8 name and a known extension. -/
def pathW : Path :=
  { isFile := true, fileName := some (some "notes.txt"),
    extension := some "txt" }

/-- A concrete key set. -/
def keySetW : KeySet :=
  { secret := [1, 2, 3], iv := [4, 5], authKey := [6], metaKey := [7],
    fileKey := [8], authKeyEncoded := "QUtFWQ" }

/-- The decoded body of a successful upload response. -/
def respW : UploadResponse :=
  { id := "abc", url := "https://example.com/download/abc", owner := "tok" }

/-- The parsed form of `respW.url`. -/
def dlUrlW : Url :=
  { base := "https://example.com", path := "/download/abc", query := none,
    fragment := none, cannotBeABase := false }

/-- An environment in which every collaborator succeeds. -/
def envW : Env :=
  { keySet := keySetW,
    toJson := fun m => m.iv ++ [99],
    aead := fun _ _ _ pt tagLen => some (pt, List.replicate tagLen 9),
    mimeFromExt := fun e => if e == "txt" then some "text/plain" else none,
    openOk := true, encReaderOk := true, progressReaderOk := true,
    readerLen := some 42,
    buildOk := true, startLockOk := true, finishLockOk := true,
    httpResponse := some { status := 200, body := "json" },
    errText := fun s => "status" ++ toString s,
    decodeJson := fun _ => some respW,
    parseUrl := fun _ => some dlUrlW }

/-- The upload of `pathW` to `urlW`. -/
def uploadW : Upload := { host := urlW, path := pathW }

/-- A path that does not reference an existing regular file. -/
def pathBad : Path := { isFile := false, fileName := none, extension := none }

/-- The upload of the nonexistent `pathBad` to `urlW`. -/
def uploadBad : Upload := { host := urlW, path := pathBad }

/-- A file handle as produced by a successful upload. -/
def fileW : SendFile :=
  { id := "abc", host := urlW, url := dlUrlW, secret := [1, 2, 3],
    owner := "tok" }

/-- A concrete fragment encoding of the secret bytes. -/
def encW (s : List Nat) : String :=
  String.intercalate "," (s.map toString)

/-! Claim theorems. -/

/-- C1: `download_url(true)` embeds the secret only as the URL fragment —
the path and query are those of the base URL, and the fragment is the
encoded secret — while `download_url(false)` returns the base URL
unchanged, which therefore does not contain the secret whenever the base
URL itself does not. -/
theorem C1_download_url_secret_fragment (enc : List Nat → String)
    (f : SendFile)
    (hne : strHasSub (enc f.secret) f.url.toStr = false) :
    f.downloadUrl enc true = { f.url with fragment := some (enc f.secret) }
    ∧ (f.downloadUrl enc true).path = f.url.path
    ∧ (f.downloadUrl enc true).query = f.url.query
    ∧ (f.downloadUrl enc true).fragment = some (enc f.secret)
    ∧ f.downloadUrl enc false = f.url
    ∧ strHasSub (enc f.secret) (f.downloadUrl enc false).toStr = false := by
  refine ⟨rfl, rfl, rfl, rfl, rfl, ?_⟩
  simpa [SendFile.downloadUrl] using hne

/-- Witness for C1 at the concrete handle `fileW` and encoder `encW`. -/
theorem C1_witness :
    strHasSub (encW fileW.secret) fileW.url.toStr = false
    ∧ (fileW.downloadUrl encW true).fragment = some (encW fileW.secret)
    ∧ fileW.downloadUrl encW false = fileW.url := by
  have h : strHasSub (encW fileW.secret) fileW.url.toStr = false := by
    decide
  have hc := C1_download_url_secret_fragment encW fileW h
  exact ⟨h, hc.2.2.2.1, hc.2.2.2.2.1⟩

/-- C2: for a path that is not an existing regular file, `invoke` returns
`Error::File(FileError::NotAFile)` with an empty event trace: no key is
generated and no network call is made. -/
theorem C2_fail_fast (env : Env) (u : Upload)
    (h : u.path.isFile = false) :
    (invoke env u).1 = .fails (.file .notAFile)
    ∧ (invoke env u).2 = []
    ∧ Event.keygen ∉ (invoke env u).2
    ∧ Event.httpExecute ∉ (invoke env u).2 := by
  have hfd : FileData.fromPath env u.path = .error .notAFile := by
    simp [FileData.fromPath, h]
  simp [invoke, hfd]

/-- Witness for C2 at a concrete nonexistent path. -/
theorem C2_witness :
    uploadBad.path.isFile = false
    ∧ (invoke envW uploadBad).1 = .fails (.file .notAFile) :=
  ⟨rfl, (C2_fail_fast envW uploadBad rfl).1⟩

/-- For an existing regular file, `FileData::from` succeeds with the
defaulted name and the guessed mime type. -/
theorem fromPath_ok (env : Env) (p : Path) (h : p.isFile = true) :
    FileData.fromPath env p =
      .ok { name := (match p.fileName with
                     | some n => n.getD "file"
                     | none => "file"),
            mime := guessMimeType env p } := by
  simp [FileData.fromPath, h]

/-- When the AEAD primitive succeeds, metadata encryption succeeds. -/
theorem createMetadata_ok (env : Env) (key : KeySet) (file : FileData)
    (h : ∀ k nonce aad pt t, (env.aead k nonce aad pt t).isSome = true) :
    ∃ md, createMetadata env key file = .ok md := by
  rcases Option.isSome_iff_exists.mp
      (h key.metaKey (List.replicate 12 0) []
        (env.toJson { iv := key.iv, name := file.name, mime := file.mime }) 16)
    with ⟨⟨ct, tag⟩, hct⟩
  exact ⟨ct ++ tag, by simp only [createMetadata]; rw [hct]⟩

/-- When the file opens and both reader layers build, `create_reader`
yields the reader whose length is the environment's. -/
theorem createReader_ok (env : Env) (hopen : env.openOk = true)
    (henc : env.encReaderOk = true) (hprog : env.progressReaderOk = true) :
    createReader env = .ok { len := env.readerLen } := by
  simp [createReader, hopen, henc, hprog]

/-- Reduction of `invoke`'s event trace when every step up to starting
the reporter succeeds: the trace is key generation, reporter start with
the precomputed length, the network call, and — exactly when the
finish-time lock succeeds — the reporter finish. -/
theorem invoke_trace (env : Env) (u : Upload) (n : Nat)
    (hfile : u.path.isFile = true)
    (haead : ∀ k nonce aad pt t, (env.aead k nonce aad pt t).isSome = true)
    (hopen : env.openOk = true) (henc : env.encReaderOk = true)
    (hprog : env.progressReaderOk = true)
    (hlen : env.readerLen = some n)
    (hjoin : u.host.cannotBeABase = false)
    (hbuild : env.buildOk = true)
    (hstart : env.startLockOk = true) :
    (invoke env u).2 =
      [Event.keygen, Event.reporterStart n, Event.httpExecute]
        ++ (if env.finishLockOk then [Event.reporterFinish] else []) := by
  rcases createMetadata_ok env env.keySet
      { name := (match u.path.fileName with
                 | some nm => nm.getD "file"
                 | none => "file"),
        mime := guessMimeType env u.path } haead with ⟨md, hmd⟩
  have hreq : createRequest env u env.keySet md { len := some n } =
      .ok { method := "POST",
            url := { base := u.host.base, path := dirPart u.host.path ++ "api/upload",
                     query := none, fragment := none, cannotBeABase := false },
            auth := "send-v1 " ++ env.keySet.authKeyEncoded,
            metaHeader := md,
            parts := [{ name := "data", len := n,
                        mime := "application/octet-stream" }] } := by
    simp [createRequest, Url.join, hjoin, hbuild]
  simp only [invoke, fromPath_ok env u.path hfile, hmd,
    createReader_ok env hopen henc hprog, hlen, hreq, hstart,
    executeRequest, Bool.not_true]
  cases hfin : env.finishLockOk <;>
      rcases hresp : env.httpResponse with _ | resp <;>
      (simp [hfin, hresp]; try (split <;> simp))

/-- An environment in which the AEAD primitive fails, so metadata
encryption fails during preparation. -/
def envMetaFail : Env := { envW with aead := fun _ _ _ _ _ => none }

/-- Counterexample to C3: on a preparation failure (metadata encryption
fails), `invoke` returns `Error::Prepare(PrepareError::Meta(Encrypt))`
without ever calling the reporter's `finish` — so `finish` is not called
on every exit path. -/
theorem C3_counterexample :
    (invoke envMetaFail uploadW).1 = .fails (.prepare (.meta .encrypt))
    ∧ (invoke envMetaFail uploadW).2.count Event.reporterFinish = 0 :=
  ⟨rfl, rfl⟩

/-- C3 (amended): when every step up to starting the reporter succeeds
and the finish-time lock is acquired, `finish` is called exactly once
before `invoke` returns, on every exit path from that point on — request
transport failure, non-success status, decode failure, URL-parse failure
and success alike; on exits before the reporter is started (file check,
preparation, the length unwrap, request construction, start-lock
failure), `finish` is not called. -/
theorem C3_finish_once_after_start (env : Env) (u : Upload) (n : Nat)
    (hfile : u.path.isFile = true)
    (haead : ∀ k nonce aad pt t, (env.aead k nonce aad pt t).isSome = true)
    (hopen : env.openOk = true) (henc : env.encReaderOk = true)
    (hprog : env.progressReaderOk = true)
    (hlen : env.readerLen = some n)
    (hjoin : u.host.cannotBeABase = false)
    (hbuild : env.buildOk = true)
    (hstart : env.startLockOk = true)
    (hfin : env.finishLockOk = true) :
    (invoke env u).2.count Event.reporterFinish = 1 := by
  rw [invoke_trace env u n hfile haead hopen henc hprog hlen hjoin hbuild
    hstart, hfin]
  simp [List.count_append, List.count_cons]

/-- Witness for C3's amended theorem at the all-success environment. -/
theorem C3_witness :
    (invoke envW uploadW).2.count Event.reporterFinish = 1 :=
  C3_finish_once_after_start envW uploadW 42 rfl
    (fun _ _ _ _ _ => rfl) rfl rfl rfl rfl rfl rfl rfl rfl

/-- An environment whose response is an HTTP 413 with body
`"file too large"` and whose `err_text` renders every status code as the
empty string. -/
def envC4 : Env :=
  { envW with
    httpResponse := some { status := 413, body := "file too large" },
    errText := fun _ => "" }

/-- Counterexample to C4: the message carried by
`UploadError::RequestStatus` is `status.err_text()`, a function of the
status code alone, so it cannot be the server-supplied response body
verbatim: with `err_text` rendering the empty string, a 413 response
with body `"file too large"` yields a message different from that
body. -/
theorem C4_counterexample :
    ¬ (∀ (env : Env) (u : Upload) (key : KeySet) (resp : Response),
        env.httpResponse = some resp → isSuccess resp.status = false →
        (executeRequest env u key).1 =
          .error (.requestStatus resp.status resp.body)) := by
  intro h
  have h1 := h envC4 uploadW keySetW
    { status := 413, body := "file too large" } rfl rfl
  simp [envC4, executeRequest, isSuccess] at h1

/-- C4 (amended): a non-success response fails with
`UploadError::RequestStatus` carrying that exact status code and the
text `err_text` derives from the status code (independent of the
response body). -/
theorem C4_request_status (env : Env) (u : Upload) (key : KeySet)
    (resp : Response)
    (hresp : env.httpResponse = some resp)
    (hstatus : isSuccess resp.status = false) :
    (executeRequest env u key).1 =
      .error (.requestStatus resp.status (env.errText resp.status)) := by
  simp [executeRequest, hresp, hstatus]

/-- An all-success environment whose response is an HTTP 413 with body
`"file too large"`. -/
def env413 : Env :=
  { envW with httpResponse := some { status := 413, body := "file too large" } }

/-- Witness for C4's amended theorem at the concrete 413 response. -/
theorem C4_witness :
    env413.httpResponse = some { status := 413, body := "file too large" }
    ∧ isSuccess 413 = false
    ∧ (executeRequest env413 uploadW keySetW).1 =
        .error (.requestStatus 413 (env413.errText 413)) :=
  ⟨rfl, by decide,
    C4_request_status env413 uploadW keySetW
      { status := 413, body := "file too large" } rfl (by decide)⟩

/-- C5: metadata encryption serializes the metadata built from the key
set's iv, the file name and the mime type to its wire form, encrypts it
with the meta key under the fixed all-zero 12-byte nonce requesting a
16-byte tag, and appends the tag to the ciphertext (so the result is 16
bytes longer than the ciphertext); if the AEAD primitive fails,
`create_metadata` returns exactly `MetaError::Encrypt`. -/
theorem C5_metadata_encryption (env : Env) (key : KeySet)
    (file : FileData) :
    (∀ ct tag,
      env.aead key.metaKey (List.replicate 12 0) []
          (env.toJson { iv := key.iv, name := file.name, mime := file.mime })
          16 = some (ct, tag) →
      createMetadata env key file = .ok (ct ++ tag)
      ∧ (tag.length = 16 → (ct ++ tag).length = ct.length + 16))
    ∧ (env.aead key.metaKey (List.replicate 12 0) []
          (env.toJson { iv := key.iv, name := file.name, mime := file.mime })
          16 = none →
      createMetadata env key file = .error .encrypt) := by
  constructor
  · intro ct tag h
    refine ⟨by simp only [createMetadata]; rw [h], fun ht => by simp [ht]⟩
  · intro h
    simp only [createMetadata]; rw [h]

/-- Witness for C5: in the all-success environment the encrypted
metadata is the serialized blob followed by the 16-byte tag. -/
theorem C5_witness :
    createMetadata envW keySetW { name := "notes.txt", mime := "text/plain" }
      = .ok ([4, 5, 99] ++ List.replicate 16 9) :=
  ((C5_metadata_encryption envW keySetW
      { name := "notes.txt", mime := "text/plain" }).1
    [4, 5, 99] (List.replicate 16 9) rfl).1

/-- C6: the built request is a POST to `host.join("api/upload")` whose
multipart body has exactly one part named `"data"` with the precomputed
stream length and the octet-stream content type, whose authorization
header is `"send-v1 "` followed by the encoded auth key, and whose
metadata header carries the encrypted metadata blob. -/
theorem C6_request_shape (env : Env) (u : Upload) (key : KeySet)
    (metadata : List Nat) (reader : Reader) (n : Nat) (url : Url)
    (hlen : reader.len = some n)
    (hjoin : u.host.join "api/upload" = some url)
    (hbuild : env.buildOk = true) :
    createRequest env u key metadata reader =
      .ok { method := "POST", url := url,
            auth := "send-v1 " ++ key.authKeyEncoded,
            metaHeader := metadata,
            parts := [{ name := "data", len := n,
                        mime := "application/octet-stream" }] } := by
  simp [createRequest, hlen, hjoin, hbuild]

/-- The resolved upload endpoint for the host `urlW`. -/
def apiUrlW : Url :=
  { base := "https://send.firefox.com", path := "/api/upload",
    query := none, fragment := none, cannotBeABase := false }

/-- Witness for C6 at the concrete host, key and reader. -/
theorem C6_witness :
    urlW.join "api/upload" = some apiUrlW
    ∧ createRequest envW uploadW keySetW [7, 7] { len := some 42 } =
        .ok { method := "POST", url := apiUrlW,
              auth := "send-v1 " ++ keySetW.authKeyEncoded,
              metaHeader := [7, 7],
              parts := [{ name := "data", len := 42,
                          mime := "application/octet-stream" }] } :=
  ⟨by decide, C6_request_shape envW uploadW keySetW [7, 7]
      { len := some 42 } 42 apiUrlW rfl (by decide) rfl⟩

/-- C7: on a successful (2xx) response, a body that does not decode
yields `UploadError::Decode`; a decoded body whose URL does not parse
yields the distinct `UploadError::ParseUrl`; and when both succeed, the
file handle is built from exactly the decoded `id`, parsed `url` and
`owner`, together with the local host and the key set's secret. -/
theorem C7_response_decode (env : Env) (u : Upload) (key : KeySet)
    (resp : Response)
    (hresp : env.httpResponse = some resp)
    (hstatus : isSuccess resp.status = true) :
    (env.decodeJson resp.body = none →
      (executeRequest env u key).1 = .error .decode)
    ∧ (∀ r, env.decodeJson resp.body = some r →
        (env.parseUrl r.url = none →
          (executeRequest env u key).1 = .error .parseUrl)
        ∧ (∀ parsed, env.parseUrl r.url = some parsed →
            (executeRequest env u key).1 =
              .ok { id := r.id, host := u.host, url := parsed,
                    secret := key.secret, owner := r.owner }))
    ∧ UploadError.decode ≠ UploadError.parseUrl := by
  refine ⟨fun hd => ?_, fun r hr => ⟨fun hp => ?_, fun parsed hp => ?_⟩,
    by decide⟩
  · simp [executeRequest, hresp, hstatus, hd]
  · simp [executeRequest, UploadResponse.intoFile, hresp, hstatus, hr, hp]
  · simp [executeRequest, UploadResponse.intoFile, hresp, hstatus, hr, hp]

/-- Witness for C7 at the all-success environment: the handle is built
from the decoded response, the host and the secret. -/
theorem C7_witness :
    (executeRequest envW uploadW keySetW).1 =
      .ok { id := respW.id, host := uploadW.host, url := dlUrlW,
            secret := keySetW.secret, owner := respW.owner } :=
  (((C7_response_decode envW uploadW keySetW
        { status := 200, body := "json" } rfl rfl).2.1
      respW rfl).2 dlUrlW rfl)

/-- C8: for a path that is an existing regular file, `FileData::from`
always succeeds; the display name defaults to the literal `"file"` when
the path has no final component or its name is not valid UTF-8; and the
mime type falls back to `application/octet-stream` when no type can be
guessed from the extension. -/
theorem C8_file_data_defaults (env : Env) (p : Path)
    (hfile : p.isFile = true) :
    (∃ fd, FileData.fromPath env p = .ok fd)
    ∧ (p.fileName = none ∨ p.fileName = some none →
        ∃ fd, FileData.fromPath env p = .ok fd ∧ fd.name = "file")
    ∧ (p.extension.bind env.mimeFromExt = none →
        ∃ fd, FileData.fromPath env p = .ok fd
          ∧ fd.mime = "application/octet-stream") := by
  refine ⟨⟨_, fromPath_ok env p hfile⟩, fun hn => ⟨_, fromPath_ok env p hfile, ?_⟩,
    fun hm => ⟨_, fromPath_ok env p hfile, ?_⟩⟩
  · rcases hn with hn | hn <;> simp [hn]
  · simp [guessMimeType, hm]

/-- A regular file whose name is not valid UTF-8 and whose extension no
mime type is known for. -/
def pathAnon : Path :=
  { isFile := true, fileName := some none, extension := some "zzz" }

/-- Witness for C8 at `pathAnon`: the name defaults to `"file"` and the
mime type falls back to the generic binary type. -/
theorem C8_witness :
    ∃ fd, FileData.fromPath envW pathAnon = .ok fd ∧ fd.name = "file"
      ∧ fd.mime = "application/octet-stream" := by
  rcases (C8_file_data_defaults envW pathAnon rfl).2.1 (Or.inr rfl)
    with ⟨fd, hfd, hname⟩
  rcases (C8_file_data_defaults envW pathAnon rfl).2.2 rfl
    with ⟨fd2, hfd2, hmime⟩
  exact ⟨fd, hfd, hname, by
    have : fd = fd2 := by
      have := hfd.symm.trans hfd2
      exact Except.ok.inj this
    rw [this]; exact hmime⟩

/-- C9: the encrypted stream's total length is computed up front — when
`len()` yields nothing, `invoke` aborts through the unwrap panic with no
reporter start and no network call, so the upload never proceeds with an
unknown length — and when it yields `n`, that same `n` is both the
reporter's total and the declared length of the request body's single
part. -/
theorem C9_length_up_front (env : Env) (u : Upload)
    (hfile : u.path.isFile = true)
    (haead : ∀ k nonce aad pt t, (env.aead k nonce aad pt t).isSome = true)
    (hopen : env.openOk = true) (henc : env.encReaderOk = true)
    (hprog : env.progressReaderOk = true) :
    (env.readerLen = none →
      (invoke env u).1 = .panics "called Option::unwrap on a None value"
      ∧ Event.httpExecute ∉ (invoke env u).2
      ∧ ∀ t, Event.reporterStart t ∉ (invoke env u).2)
    ∧ (∀ n, env.readerLen = some n →
        u.host.cannotBeABase = false → env.buildOk = true →
        env.startLockOk = true →
        Event.reporterStart n ∈ (invoke env u).2
        ∧ ∀ metadata, ∃ req,
            createRequest env u env.keySet metadata { len := some n } =
              .ok req
            ∧ req.parts.map Part.len = [n]) := by
  rcases createMetadata_ok env env.keySet
      { name := (match u.path.fileName with
                 | some nm => nm.getD "file"
                 | none => "file"),
        mime := guessMimeType env u.path } haead with ⟨md, hmd⟩
  constructor
  · intro hlen
    simp [invoke, fromPath_ok env u.path hfile, hmd,
      createReader_ok env hopen henc hprog, hlen]
  · intro n hlen hjoin hbuild hstart
    constructor
    · rw [invoke_trace env u n hfile haead hopen henc hprog hlen hjoin
        hbuild hstart]
      simp
    · intro metadata
      refine ⟨{ method := "POST",
                url := { base := u.host.base,
                         path := dirPart u.host.path ++ "api/upload",
                         query := none, fragment := none,
                         cannotBeABase := false },
                auth := "send-v1 " ++ env.keySet.authKeyEncoded,
                metaHeader := metadata,
                parts := [{ name := "data", len := n,
                            mime := "application/octet-stream" }] }, ?_, rfl⟩
      simp [createRequest, Url.join, hjoin, hbuild]

/-- The all-success environment, except that the stream length cannot be
determined. -/
def envNoLen : Env := { envW with readerLen := none }

/-- Witness for C9: with an unknown length the upload aborts before any
network call; with length 42 the reporter total and the declared part
length are both 42. -/
theorem C9_witness :
    ((invoke envNoLen uploadW).1
        = .panics "called Option::unwrap on a None value"
      ∧ Event.httpExecute ∉ (invoke envNoLen uploadW).2)
    ∧ (Event.reporterStart 42 ∈ (invoke envW uploadW).2
      ∧ ∃ req, createRequest envW uploadW envW.keySet [7, 7]
            { len := some 42 } = .ok req
          ∧ req.parts.map Part.len = [42]) := by
  have ha := (C9_length_up_front envNoLen uploadW rfl
    (fun _ _ _ _ _ => rfl) rfl rfl rfl).1 rfl
  have hb := (C9_length_up_front envW uploadW rfl
    (fun _ _ _ _ _ => rfl) rfl rfl rfl).2 42 rfl rfl rfl rfl
  exact ⟨⟨ha.1, ha.2.1⟩, hb.1, hb.2 [7, 7]⟩

/-- C10: `invoke` is not total over its host: with everything before
request construction succeeding, a host that cannot be joined with
`"api/upload"` aborts with the panic `"invalid host"`, a request that
cannot be built aborts with the panic
`"failed to build an API request"`, and a panicking invocation is never
an `Err` value of the `Error` result type. -/
theorem C10_create_request_panics (env : Env) (u : Upload) (n : Nat)
    (hfile : u.path.isFile = true)
    (haead : ∀ k nonce aad pt t, (env.aead k nonce aad pt t).isSome = true)
    (hopen : env.openOk = true) (henc : env.encReaderOk = true)
    (hprog : env.progressReaderOk = true)
    (hlen : env.readerLen = some n) :
    (u.host.cannotBeABase = true →
      (invoke env u).1 = .panics "invalid host")
    ∧ (u.host.cannotBeABase = false → env.buildOk = false →
      (invoke env u).1 = .panics "failed to build an API request")
    ∧ (∀ msg e, (invoke env u).1 = .panics msg →
        (invoke env u).1 ≠ .fails e) := by
  rcases createMetadata_ok env env.keySet
      { name := (match u.path.fileName with
                 | some nm => nm.getD "file"
                 | none => "file"),
        mime := guessMimeType env u.path } haead with ⟨md, hmd⟩
  refine ⟨fun hbase => ?_, fun hbase hbuild => ?_, fun msg e hp => ?_⟩
  · have hreq : createRequest env u env.keySet md { len := some n } =
        .error "invalid host" := by
      simp [createRequest, Url.join, hbase]
    simp [invoke, fromPath_ok env u.path hfile, hmd,
      createReader_ok env hopen henc hprog, hlen, hreq]
  · have hreq : createRequest env u env.keySet md { len := some n } =
        .error "failed to build an API request" := by
      simp [createRequest, Url.join, hbase, hbuild]
    simp [invoke, fromPath_ok env u.path hfile, hmd,
      createReader_ok env hopen henc hprog, hlen, hreq]
  · rw [hp]; exact fun h => Outcome.noConfusion h

/-- A host URL that cannot be a base, so `Url::join` fails on it. -/
def hostBad : Url := { urlW with cannotBeABase := true }

/-- The upload of `pathW` to the unjoinable `hostBad`. -/
def uploadBadHost : Upload := { host := hostBad, path := pathW }

/-- The all-success environment, except that the HTTP request cannot be
built. -/
def envNoBuild : Env := { envW with buildOk := false }

/-- Witness for C10 at the unjoinable host and the unbuildable
request. -/
theorem C10_witness :
    (invoke envW uploadBadHost).1 = .panics "invalid host"
    ∧ (invoke envNoBuild uploadW).1
        = .panics "failed to build an API request" :=
  ⟨(C10_create_request_panics envW uploadBadHost 42 rfl
      (fun _ _ _ _ _ => rfl) rfl rfl rfl rfl).1 rfl,
    (C10_create_request_panics envNoBuild uploadW 42 rfl
      (fun _ _ _ _ _ => rfl) rfl rfl rfl rfl).2.1 rfl rfl⟩

end Ffsend
